import Mathlib

/-!
# Verification of the rotation/interpolation core of `three.math`

Shallow embedding of the `Quaternion`, `Euler` and `CubicInterpolant`
classes of the repository, over the real numbers, together with proofs
about the properties claimed in the specification.

JavaScript numbers are modelled by `ℝ`; `Math.sqrt`, `Math.sin`,
`Math.cos`, `Math.asin`, `Math.acos`, `Math.atan2` by the corresponding
real functions; JavaScript arrays used as flat numeric buffers by
functions `ℕ → ℝ` (or `ℤ → ℝ` where the source may index with negative
integers); array writes by `Function.update`.
-/

namespace ThreeMath

open Classical

noncomputable section

/-- `Number.EPSILON` of JavaScript: the difference between 1 and the
smallest floating point number greater than 1, i.e. `2⁻⁵²`. -/
def numberEpsilon : ℝ := 1 / 2 ^ 52

/-- Modelled from the spec: `MathUtils.clamp(value, min, max)` of the
repository's `MathUtils` module (whose source file is not part of the
given sources) clamps `value` to the closed interval `[minv, maxv]`,
computed as `Math.max(min, Math.min(max, value))`. -/
def clamp (value minv maxv : ℝ) : ℝ := max minv (min maxv value)

/-- JavaScript `Math.atan2(y, x)`: the angle of the point `(x, y)`,
in `(-π, π]`. -/
def atan2 (y x : ℝ) : ℝ :=
  if 0 < x then Real.arctan (y / x)
  else if x < 0 then
    (if 0 ≤ y then Real.arctan (y / x) + Real.pi
     else Real.arctan (y / x) - Real.pi)
  else if 0 < y then Real.pi / 2
  else if y < 0 then -(Real.pi / 2)
  else 0

/-- The `Quaternion` class: four scalar components `_x, _y, _z, _w`. -/
structure Quaternion where
  x : ℝ
  y : ℝ
  z : ℝ
  w : ℝ

namespace Quaternion

/-- `Quaternion.prototype.dot(v)`:
`this._x * v._x + this._y * v._y + this._z * v._z + this._w * v._w`. -/
def dot (q v : Quaternion) : ℝ :=
  q.x * v.x + q.y * v.y + q.z * v.z + q.w * v.w

/-- `Quaternion.prototype.lengthSq()`. -/
def lengthSq (q : Quaternion) : ℝ :=
  q.x * q.x + q.y * q.y + q.z * q.z + q.w * q.w

/-- `Quaternion.prototype.length()`:
`Math.sqrt(x*x + y*y + z*z + w*w)`. -/
def length (q : Quaternion) : ℝ :=
  Real.sqrt (q.x * q.x + q.y * q.y + q.z * q.z + q.w * q.w)

/-- `Quaternion.prototype.angleTo(q)`:
`2 * Math.acos(Math.abs(MathUtils.clamp(this.dot(q), -1, 1)))`. -/
def angleTo (q qq : Quaternion) : ℝ :=
  2 * Real.arccos |clamp (q.dot qq) (-1) 1|

/-- `Quaternion.prototype.normalize()`: if the length is `0` the
components are reset to the identity `(0, 0, 0, 1)`, otherwise every
component is multiplied by `1 / length`. -/
def normalize (q : Quaternion) : Quaternion :=
  let l := q.length
  if l = 0 then ⟨0, 0, 0, 1⟩
  else
    let li := 1 / l
    ⟨q.x * li, q.y * li, q.z * li, q.w * li⟩

/-- The componentwise negation `-q` of a quaternion (not a method of the
class; used to state the double-cover claims). -/
def negQ (q : Quaternion) : Quaternion := ⟨-q.x, -q.y, -q.z, -q.w⟩

/-- The tail of `Quaternion.prototype.slerp(qb, t)` after the
double-cover step: at this point the source has saved the original
components of `this` in `x, y, z, w` (here `a`), has set `this` to
`qb` or its negation (here `q2`), and `cosHalfTheta` is nonnegative
(here `c`).  It then returns `this` restored to `a` when `c >= 1`,
falls back to a linear interpolation followed by `normalize()` when
`sqrSinHalfTheta <= Number.EPSILON`, and otherwise computes the exact
spherical interpolation. -/
def slerpMain (a q2 : Quaternion) (c t : ℝ) : Quaternion :=
  if 1 ≤ c then a
  else
    let sqrSinHalfTheta := 1 - c * c
    if sqrSinHalfTheta ≤ numberEpsilon then
      Quaternion.normalize
        ⟨(1 - t) * a.x + t * q2.x, (1 - t) * a.y + t * q2.y,
         (1 - t) * a.z + t * q2.z, (1 - t) * a.w + t * q2.w⟩
    else
      let sinHalfTheta := Real.sqrt sqrSinHalfTheta
      let halfTheta := atan2 sinHalfTheta c
      let rA := Real.sin ((1 - t) * halfTheta) / sinHalfTheta
      let rB := Real.sin (t * halfTheta) / sinHalfTheta
      ⟨a.x * rA + q2.x * rB, a.y * rA + q2.y * rB,
       a.z * rA + q2.z * rB, a.w * rA + q2.w * rB⟩

/-- `Quaternion.prototype.slerp(qb, t)`: `t === 0` returns `this`
unchanged, `t === 1` copies `qb`; otherwise, when `cosHalfTheta < 0`
the target is negated (shortest arc) and the computation continues in
`slerpMain`. -/
def slerp (a qb : Quaternion) (t : ℝ) : Quaternion :=
  if t = 0 then a
  else if t = 1 then qb
  else
    let cosHalfTheta := a.w * qb.w + a.x * qb.x + a.y * qb.y + a.z * qb.z
    if cosHalfTheta < 0 then
      slerpMain a ⟨-qb.x, -qb.y, -qb.z, -qb.w⟩ (-cosHalfTheta) t
    else
      slerpMain a qb cosHalfTheta t

/-- `Quaternion.prototype.multiplyQuaternions(a, b)`: the Hamilton
product, written to `this` componentwise. -/
def multiplyQuaternions (a b : Quaternion) : Quaternion :=
  ⟨a.x * b.w + a.w * b.x + a.y * b.z - a.z * b.y,
   a.y * b.w + a.w * b.y + a.z * b.x - a.x * b.z,
   a.z * b.w + a.w * b.z + a.x * b.y - a.y * b.x,
   a.w * b.w - a.x * b.x - a.y * b.y - a.z * b.z⟩

/-- The tail of static `Quaternion.slerpFlat` once the two sources were
found to differ componentwise: the source computes
`dir = (cos >= 0 ? 1 : -1)` (here passed as `dr`) and then updates
`s`, `t`, blends, and re-normalizes when `s === 1 - t` ("in case we
just did a lerp"). -/
def slerpFlatTail (x0 y0 z0 w0 x1 y1 z1 w1 t dr : ℝ) : Quaternion :=
  let s := 1 - t
  let cos := x0 * x1 + y0 * y1 + z0 * z1 + w0 * w1
  let sqrSin := 1 - cos * cos
  let st : ℝ × ℝ :=
    if numberEpsilon < sqrSin then
      let sin := Real.sqrt sqrSin
      let len := atan2 sin (cos * dr)
      (Real.sin (s * len) / sin, Real.sin (t * len) / sin)
    else (s, t)
  let tDir := st.2 * dr
  let x0a := x0 * st.1 + x1 * tDir
  let y0a := y0 * st.1 + y1 * tDir
  let z0a := z0 * st.1 + z1 * tDir
  let w0a := w0 * st.1 + w1 * tDir
  if st.1 = 1 - st.2 then
    let f := 1 / Real.sqrt (x0a * x0a + y0a * y0a + z0a * z0a + w0a * w0a)
    ⟨x0a * f, y0a * f, z0a * f, w0a * f⟩
  else ⟨x0a, y0a, z0a, w0a⟩

/-- The values written by static `Quaternion.slerpFlat(dst, dstOffset,
src0, srcOffset0, src1, srcOffset1, t)`: the `t === 0` / `t === 1`
short circuits copy a source quaternion verbatim; when every component
of the two sources is equal the initial values pass through unchanged;
otherwise the interpolation proper runs in `slerpFlatTail` with
`dir = (cos >= 0 ? 1 : -1)`. -/
def slerpFlatCore (x0 y0 z0 w0 x1 y1 z1 w1 t : ℝ) : Quaternion :=
  if t = 0 then ⟨x0, y0, z0, w0⟩
  else if t = 1 then ⟨x1, y1, z1, w1⟩
  else if w0 ≠ w1 ∨ x0 ≠ x1 ∨ y0 ≠ y1 ∨ z0 ≠ z1 then
    slerpFlatTail x0 y0 z0 w0 x1 y1 z1 w1 t
      (if 0 ≤ x0 * x1 + y0 * y1 + z0 * z1 + w0 * w1 then 1 else -1)
  else ⟨x0, y0, z0, w0⟩

end Quaternion

/-- The four consecutive array stores
`dst[off] = x; dst[off+1] = y; dst[off+2] = z; dst[off+3] = w`
shared by the flat-array static methods. -/
def writeQuat (dst : ℕ → ℝ) (off : ℕ) (q : Quaternion) : ℕ → ℝ :=
  Function.update (Function.update (Function.update
    (Function.update dst off q.x) (off + 1) q.y) (off + 2) q.z) (off + 3) q.w

/-- Static `Quaternion.multiplyQuaternionsFlat(dst, dstOffset, src0,
srcOffset0, src1, srcOffset1)`: reads the two quaternions from the flat
source arrays at their offsets and stores the Hamilton product into
`dst` at `dstOffset`. -/
def multiplyQuaternionsFlat (dst : ℕ → ℝ) (dstOffset : ℕ)
    (src0 : ℕ → ℝ) (srcOffset0 : ℕ) (src1 : ℕ → ℝ) (srcOffset1 : ℕ) :
    ℕ → ℝ :=
  let x0 := src0 srcOffset0
  let y0 := src0 (srcOffset0 + 1)
  let z0 := src0 (srcOffset0 + 2)
  let w0 := src0 (srcOffset0 + 3)
  let x1 := src1 srcOffset1
  let y1 := src1 (srcOffset1 + 1)
  let z1 := src1 (srcOffset1 + 2)
  let w1 := src1 (srcOffset1 + 3)
  writeQuat dst dstOffset
    ⟨x0 * w1 + w0 * x1 + y0 * z1 - z0 * y1,
     y0 * w1 + w0 * y1 + z0 * x1 - x0 * z1,
     z0 * w1 + w0 * z1 + x0 * y1 - y0 * x1,
     w0 * w1 - x0 * x1 - y0 * y1 - z0 * z1⟩

/-- Static `Quaternion.slerpFlat`: reads the source quaternions from
the flat arrays at their offsets, interpolates via `slerpFlatCore`, and
stores the four resulting components into `dst` at `dstOffset`. -/
def slerpFlat (dst : ℕ → ℝ) (dstOffset : ℕ)
    (src0 : ℕ → ℝ) (srcOffset0 : ℕ) (src1 : ℕ → ℝ) (srcOffset1 : ℕ)
    (t : ℝ) : ℕ → ℝ :=
  writeQuat dst dstOffset
    (Quaternion.slerpFlatCore
      (src0 srcOffset0) (src0 (srcOffset0 + 1))
      (src0 (srcOffset0 + 2)) (src0 (srcOffset0 + 3))
      (src1 srcOffset1) (src1 (srcOffset1 + 1))
      (src1 (srcOffset1 + 2)) (src1 (srcOffset1 + 3)) t)

/-- The change-callback guard `if (update !== false) this._onChangeCallback()`
shared by the conversion methods: the callback fires for every value of
the optional `update` argument except an explicit `false`. -/
def callbackFires (update : Option Bool) : Bool :=
  match update with
  | some false => false
  | _ => true

/-- The `Matrix4` collaborator: a flat 16-element column-major array of
which the rotation code reads the 3x3 upper-left block
(`m11 = te[0], m21 = te[1], m31 = te[2], m12 = te[4], m22 = te[5],
m32 = te[6], m13 = te[8], m23 = te[9], m33 = te[10]`). -/
structure Matrix4 where
  elements : ℕ → ℝ

/-- The `Euler` class: three angles `_x, _y, _z` (radians) and the
rotation-order tag `_order`.  The order is modelled as a string, as in
the JavaScript source. -/
structure Euler where
  x : ℝ
  y : ℝ
  z : ℝ
  order : String

/-- JavaScript truthiness defaulting `order = order || this._order`:
an absent argument (`undefined`, here `none`) and the empty string are
both falsy in JavaScript, so both fall back to the default. -/
def jsOrDefault (o : Option String) (d : String) : String :=
  match o with
  | none => d
  | some s => if s = "" then d else s

namespace Euler

/-- `Euler.prototype.setFromRotationMatrix(m, order?, update?)`: per
order, an `asin` of one clamped matrix element and two `atan2` pairs,
with the gimbal-lock fallback branch taken when the asin target's
absolute value is `>= 0.9999999` (one angle from an alternate `atan2`
combination, the third angle forced to `0`).  An unrecognized order
only logs a warning (`default` case of the `switch`), leaving the
angles as previously computed; afterwards `this._order = order` is
assigned unconditionally and the change callback fires unless
`update === false`.  The returned boolean records whether the change
callback fired. -/
def setFromRotationMatrix (e : Euler) (m : Matrix4)
    (order? : Option String) (update : Option Bool) : Euler × Bool :=
  let te := m.elements
  let m11 := te 0
  let m12 := te 4
  let m13 := te 8
  let m21 := te 1
  let m22 := te 5
  let m23 := te 9
  let m31 := te 2
  let m32 := te 6
  let m33 := te 10
  let ord := jsOrDefault order? e.order
  let e1 : Euler :=
    if ord = "XYZ" then
      let ey := Real.arcsin (clamp m13 (-1) 1)
      if |m13| < 0.9999999 then
        { e with x := atan2 (-m23) m33, y := ey, z := atan2 (-m12) m11 }
      else
        { e with x := atan2 m32 m22, y := ey, z := 0 }
    else if ord = "YXZ" then
      let ex := Real.arcsin (-clamp m23 (-1) 1)
      if |m23| < 0.9999999 then
        { e with x := ex, y := atan2 m13 m33, z := atan2 m21 m22 }
      else
        { e with x := ex, y := atan2 (-m31) m11, z := 0 }
    else if ord = "ZXY" then
      let ex := Real.arcsin (clamp m32 (-1) 1)
      if |m32| < 0.9999999 then
        { e with x := ex, y := atan2 (-m31) m33, z := atan2 (-m12) m22 }
      else
        { e with x := ex, y := 0, z := atan2 m21 m11 }
    else if ord = "ZYX" then
      let ey := Real.arcsin (-clamp m31 (-1) 1)
      if |m31| < 0.9999999 then
        { e with x := atan2 m32 m33, y := ey, z := atan2 m21 m11 }
      else
        { e with x := 0, y := ey, z := atan2 (-m12) m22 }
    else if ord = "YZX" then
      let ez := Real.arcsin (clamp m21 (-1) 1)
      if |m21| < 0.9999999 then
        { e with x := atan2 (-m23) m22, y := atan2 (-m31) m11, z := ez }
      else
        { e with x := 0, y := atan2 m13 m33, z := ez }
    else if ord = "XZY" then
      let ez := Real.arcsin (-clamp m12 (-1) 1)
      if |m12| < 0.9999999 then
        { e with x := atan2 m32 m22, y := atan2 m13 m11, z := ez }
      else
        { e with x := atan2 (-m23) m33, y := 0, z := ez }
    else e
  ({ e1 with order := ord }, callbackFires update)

end Euler

/-- The argument passed to `Quaternion.prototype.setFromEuler` as seen
dynamically from JavaScript: either no object at all (`none`, i.e.
`null`/`undefined`) or an object carrying an `isEuler` flag, three
angles and an order string. -/
structure EulerArg where
  isEuler : Bool
  x : ℝ
  y : ℝ
  z : ℝ
  order : String

/-- `euler` "lacks the Euler identity": `!(euler && euler.isEuler)`. -/
def lacksEulerIdentity : Option EulerArg → Prop
  | none => True
  | some e => e.isEuler = false

/-- The six rotation orders recognized by the `switch` statements of
`Quaternion.setFromEuler` and `Euler.setFromRotationMatrix`. -/
def recognizedOrder (s : String) : Prop :=
  s = "XYZ" ∨ s = "YXZ" ∨ s = "ZXY" ∨ s = "ZYX" ∨ s = "YZX" ∨ s = "XZY"

/-- `Quaternion.prototype.setFromEuler(euler, update?)`: throws when
the argument lacks the Euler identity; otherwise derives the
components from half-angle sines/cosines per rotation order; the
`default` case of the `switch` only logs a warning and leaves the
quaternion components untouched; afterwards the change callback fires
unless `update === false`.  The result is `Except.error` for the throw,
or `Except.ok` of the new quaternion paired with whether the
unknown-order warning was logged and whether the callback fired. -/
def Quaternion.setFromEuler (q : Quaternion) (euler : Option EulerArg)
    (update : Option Bool) : Except String (Quaternion × Bool × Bool) :=
  match euler with
  | none => Except.error
      "THREE.Quaternion: .setFromEuler() now expects an Euler rotation rather than a Vector3 and order."
  | some e =>
    if e.isEuler = false then
      Except.error
        "THREE.Quaternion: .setFromEuler() now expects an Euler rotation rather than a Vector3 and order."
    else
      let c1 := Real.cos (e.x / 2)
      let c2 := Real.cos (e.y / 2)
      let c3 := Real.cos (e.z / 2)
      let s1 := Real.sin (e.x / 2)
      let s2 := Real.sin (e.y / 2)
      let s3 := Real.sin (e.z / 2)
      if e.order = "XYZ" then
        Except.ok (⟨s1 * c2 * c3 + c1 * s2 * s3, c1 * s2 * c3 - s1 * c2 * s3,
          c1 * c2 * s3 + s1 * s2 * c3, c1 * c2 * c3 - s1 * s2 * s3⟩, false, callbackFires update)
      else if e.order = "YXZ" then
        Except.ok (⟨s1 * c2 * c3 + c1 * s2 * s3, c1 * s2 * c3 - s1 * c2 * s3,
          c1 * c2 * s3 - s1 * s2 * c3, c1 * c2 * c3 + s1 * s2 * s3⟩, false, callbackFires update)
      else if e.order = "ZXY" then
        Except.ok (⟨s1 * c2 * c3 - c1 * s2 * s3, c1 * s2 * c3 + s1 * c2 * s3,
          c1 * c2 * s3 + s1 * s2 * c3, c1 * c2 * c3 - s1 * s2 * s3⟩, false, callbackFires update)
      else if e.order = "ZYX" then
        Except.ok (⟨s1 * c2 * c3 - c1 * s2 * s3, c1 * s2 * c3 + s1 * c2 * s3,
          c1 * c2 * s3 - s1 * s2 * c3, c1 * c2 * c3 + s1 * s2 * s3⟩, false, callbackFires update)
      else if e.order = "YZX" then
        Except.ok (⟨s1 * c2 * c3 + c1 * s2 * s3, c1 * s2 * c3 + s1 * c2 * s3,
          c1 * c2 * s3 - s1 * s2 * c3, c1 * c2 * c3 - s1 * s2 * s3⟩, false, callbackFires update)
      else if e.order = "XZY" then
        Except.ok (⟨s1 * c2 * c3 - c1 * s2 * s3, c1 * s2 * c3 - s1 * c2 * s3,
          c1 * c2 * s3 + s1 * s2 * c3, c1 * c2 * c3 + s1 * s2 * s3⟩, false, callbackFires update)
      else
        Except.ok (q, true, callbackFires update)

/-- Modelled from the spec: the boundary ending-mode constants
(`ZeroCurvatureEnding`, `ZeroSlopeEnding`, `WrapAroundEnding`) exported
by the repository's `Interpolant` module, whose source file is not
among the given sources.  `ZeroCurvatureEnding` is the default of
`CubicInterpolant.DefaultSettings_`. -/
inductive Ending where
  | zeroCurvature
  | zeroSlope
  | wrapAround

/-- A JavaScript array read `pp[i]` on a numeric array: `undefined`
(`none`) for a negative or out-of-range index. -/
def arrayGetZ (l : List ℝ) (i : ℤ) : Option ℝ :=
  if h : 0 ≤ i ∧ i.toNat < l.length then some (l.get ⟨i.toNat, h.2⟩)
  else none

/-- The state of a `CubicInterpolant`: the sample table
(`parameterPositions`, `sampleValues`, `valueSize`), the effective
settings returned by `getSettings_()` (modelled from the spec as
`settings || DefaultSettings_`; the constructor's default is
`ZeroCurvatureEnding` at both ends), the four cached interval fields
`_weightPrev`, `_offsetPrev`, `_weightNext`, `_offsetNext`, and the
`resultBuffer`.  Sample values are indexed by `ℤ` because the source
forms offsets by integer arithmetic that can go below zero. -/
structure CubicInterpolant where
  parameterPositions : List ℝ
  sampleValues : ℤ → ℝ
  valueSize : ℕ
  endingStart : Ending
  endingEnd : Ending
  weightPrev : ℝ
  offsetPrev : ℤ
  weightNext : ℝ
  offsetNext : ℤ
  resultBuffer : ℕ → ℝ

namespace CubicInterpolant

/-- `CubicInterpolant.prototype.intervalChanged_(i1, t0, t1)`: caches
the 4-point-stencil weights and offsets for the bracketing interval;
when `pp[i1-2]` / `pp[i1+1]` is `undefined` the virtual neighbor is
synthesized according to `endingStart` / `endingEnd` (the `default`
switch case being `ZeroCurvatureEnding`, the natural-spline
condition). -/
def intervalChanged (cubic : CubicInterpolant) (i1 : ℤ) (t0 t1 : ℝ) :
    CubicInterpolant :=
  let pp := cubic.parameterPositions
  let iPrev0 := i1 - 2
  let iNext0 := i1 + 1
  let ip : ℤ × ℝ :=
    match arrayGetZ pp iPrev0 with
    | some v => (iPrev0, v)
    | none =>
      match cubic.endingStart with
      | Ending.zeroSlope => (i1, 2 * t0 - t1)
      | Ending.wrapAround =>
        let iw := (pp.length : ℤ) - 2
        (iw, t0 + (arrayGetZ pp iw).getD 0 - (arrayGetZ pp (iw + 1)).getD 0)
      | Ending.zeroCurvature => (i1, t1)
  let inx : ℤ × ℝ :=
    match arrayGetZ pp iNext0 with
    | some v => (iNext0, v)
    | none =>
      match cubic.endingEnd with
      | Ending.zeroSlope => (i1, 2 * t1 - t0)
      | Ending.wrapAround =>
        (1, t1 + (arrayGetZ pp 1).getD 0 - (arrayGetZ pp 0).getD 0)
      | Ending.zeroCurvature => (i1 - 1, t0)
  let halfDt := (t1 - t0) * 0.5
  let stride := (cubic.valueSize : ℤ)
  { cubic with
    weightPrev := halfDt / (t0 - ip.2)
    weightNext := halfDt / (inx.2 - t1)
    offsetPrev := ip.1 * stride
    offsetNext := inx.1 * stride }

/-- `CubicInterpolant.prototype.interpolate_(i1, t0, t, t1)`: evaluates
the four cubic Hermite basis polynomials `sP, s0, s1, sN` at the
normalized position `p = (t - t0)/(t1 - t0)` and combines the four
stencil sample rows componentwise into the result buffer (entries at
indices `>= stride` of the buffer are untouched). -/
def interpolate (cubic : CubicInterpolant) (i1 : ℤ) (t0 t t1 : ℝ) :
    ℕ → ℝ :=
  let values := cubic.sampleValues
  let stride := cubic.valueSize
  let o1 := i1 * (stride : ℤ)
  let o0 := o1 - (stride : ℤ)
  let oP := cubic.offsetPrev
  let oN := cubic.offsetNext
  let wP := cubic.weightPrev
  let wN := cubic.weightNext
  let p := (t - t0) / (t1 - t0)
  let pp := p * p
  let ppp := pp * p
  let sP := -wP * ppp + 2 * wP * pp - wP * p
  let s0 := (1 + wP) * ppp + (-1.5 - 2 * wP) * pp + (-0.5 + wP) * p + 1
  let s1 := (-1 - wN) * ppp + (1.5 + wN) * pp + 0.5 * p
  let sN := wN * ppp - wN * pp
  fun i =>
    if i < stride then
      sP * values (oP + i) + s0 * values (o0 + i) +
        s1 * values (o1 + i) + sN * values (oN + i)
    else cubic.resultBuffer i

end CubicInterpolant

end

/-! ## Elementary lemmas -/

theorem clamp_one : clamp 1 (-1) 1 = 1 := by
  simp [clamp]

theorem clamp_zero : clamp 0 (-1) 1 = 0 := by
  simp [clamp]

/-- **C6** `normalize()` on the zero quaternion `(0,0,0,0)` resets the
components to the identity `(0,0,0,1)`; on every quaternion of nonzero
length it multiplies every component by the reciprocal of the length. -/
theorem normalize_zero_guard_and_scale :
    Quaternion.normalize ⟨0, 0, 0, 0⟩ = ⟨0, 0, 0, 1⟩ ∧
    ∀ q : Quaternion, q.length ≠ 0 →
      q.normalize = ⟨q.x * (1 / q.length), q.y * (1 / q.length),
                     q.z * (1 / q.length), q.w * (1 / q.length)⟩ := by
  constructor
  · simp [Quaternion.normalize, Quaternion.length]
  · intro q hq
    simp only [Quaternion.normalize]
    rw [if_neg hq]

/-- Witness for C6 at the concrete quaternion `(0,0,0,2)`. -/
theorem normalize_zero_guard_and_scale_witness :
    Quaternion.length ⟨0, 0, 0, 2⟩ ≠ 0 ∧
    Quaternion.normalize ⟨0, 0, 0, 2⟩ =
      ⟨0 * (1 / Quaternion.length ⟨0, 0, 0, 2⟩),
       0 * (1 / Quaternion.length ⟨0, 0, 0, 2⟩),
       0 * (1 / Quaternion.length ⟨0, 0, 0, 2⟩),
       2 * (1 / Quaternion.length ⟨0, 0, 0, 2⟩)⟩ := by
  have hl : Quaternion.length ⟨0, 0, 0, 2⟩ ≠ 0 := by
    simp only [Quaternion.length]
    rw [Real.sqrt_ne_zero']
    norm_num
  exact ⟨hl, normalize_zero_guard_and_scale.2 ⟨0, 0, 0, 2⟩ hl⟩

/-- **C7 counterexample**: `angleTo` of the zero quaternion with itself
is `π`, not `0`: the claim `q.angleTo(q) == 0` fails for the (non-unit)
quaternion `(0,0,0,0)`. -/
theorem angleTo_self_ne_zero_on_zero_quaternion :
    Quaternion.angleTo ⟨0, 0, 0, 0⟩ ⟨0, 0, 0, 0⟩ ≠ 0 := by
  have hdot : Quaternion.dot ⟨0, 0, 0, 0⟩ ⟨0, 0, 0, 0⟩ = 0 := by
    simp [Quaternion.dot]
  simp only [Quaternion.angleTo, hdot, clamp_zero, abs_zero, Real.arccos_zero]
  have := Real.pi_ne_zero
  intro h
  apply this
  linarith

/-- **C7 (amended)** For every *unit* quaternion `q` (`q.dot(q) = 1`),
`q.angleTo(q) = 0`; and `angleTo` is symmetric for all quaternions:
`a.angleTo(b) = b.angleTo(a)`, where
`angleTo(q) = 2 * acos(|clamp(dot(q), -1, 1)|)`. -/
theorem angleTo_self_and_symm :
    (∀ q : Quaternion, q.dot q = 1 → q.angleTo q = 0) ∧
    ∀ a b : Quaternion, a.angleTo b = b.angleTo a := by
  constructor
  · intro q hq
    simp [Quaternion.angleTo, hq, clamp_one, Real.arccos_one]
  · intro a b
    have hdot : a.dot b = b.dot a := by
      simp only [Quaternion.dot]; ring
    simp [Quaternion.angleTo, hdot]

/-- Witness for C7 at the concrete unit quaternion `(0,0,0,1)`. -/
theorem angleTo_self_and_symm_witness :
    Quaternion.dot ⟨0, 0, 0, 1⟩ ⟨0, 0, 0, 1⟩ = 1 ∧
    Quaternion.angleTo ⟨0, 0, 0, 1⟩ ⟨0, 0, 0, 1⟩ = 0 := by
  have hd : Quaternion.dot ⟨0, 0, 0, 1⟩ ⟨0, 0, 0, 1⟩ = 1 := by
    simp [Quaternion.dot]
  exact ⟨hd, angleTo_self_and_symm.1 ⟨0, 0, 0, 1⟩ hd⟩

theorem writeQuat_read_zero (dst : ℕ → ℝ) (off : ℕ) (q : Quaternion) :
    writeQuat dst off q off = q.x := by
  unfold writeQuat
  rw [Function.update_noteq (by omega), Function.update_noteq (by omega),
      Function.update_noteq (by omega), Function.update_same]

theorem writeQuat_read_one (dst : ℕ → ℝ) (off : ℕ) (q : Quaternion) :
    writeQuat dst off q (off + 1) = q.y := by
  unfold writeQuat
  rw [Function.update_noteq (by omega), Function.update_noteq (by omega),
      Function.update_same]

theorem writeQuat_read_two (dst : ℕ → ℝ) (off : ℕ) (q : Quaternion) :
    writeQuat dst off q (off + 2) = q.z := by
  unfold writeQuat
  rw [Function.update_noteq (by omega), Function.update_same]

theorem writeQuat_read_three (dst : ℕ → ℝ) (off : ℕ) (q : Quaternion) :
    writeQuat dst off q (off + 3) = q.w := by
  unfold writeQuat
  rw [Function.update_same]

/-- **C8** For every destination array and offset and every pair of
quaternions stored at arbitrary offsets inside larger flat arrays,
`multiplyQuaternionsFlat` writes into `dst` at `dstOffset` exactly the
four components that `multiplyQuaternions` computes on the equivalent
standalone quaternions. -/
theorem multiplyQuaternionsFlat_matches_instance (dst : ℕ → ℝ)
    (dstOffset : ℕ) (src0 : ℕ → ℝ) (srcOffset0 : ℕ) (src1 : ℕ → ℝ)
    (srcOffset1 : ℕ) :
    multiplyQuaternionsFlat dst dstOffset src0 srcOffset0 src1 srcOffset1
        dstOffset =
      (Quaternion.multiplyQuaternions
        ⟨src0 srcOffset0, src0 (srcOffset0 + 1), src0 (srcOffset0 + 2),
         src0 (srcOffset0 + 3)⟩
        ⟨src1 srcOffset1, src1 (srcOffset1 + 1), src1 (srcOffset1 + 2),
         src1 (srcOffset1 + 3)⟩).x ∧
    multiplyQuaternionsFlat dst dstOffset src0 srcOffset0 src1 srcOffset1
        (dstOffset + 1) =
      (Quaternion.multiplyQuaternions
        ⟨src0 srcOffset0, src0 (srcOffset0 + 1), src0 (srcOffset0 + 2),
         src0 (srcOffset0 + 3)⟩
        ⟨src1 srcOffset1, src1 (srcOffset1 + 1), src1 (srcOffset1 + 2),
         src1 (srcOffset1 + 3)⟩).y ∧
    multiplyQuaternionsFlat dst dstOffset src0 srcOffset0 src1 srcOffset1
        (dstOffset + 2) =
      (Quaternion.multiplyQuaternions
        ⟨src0 srcOffset0, src0 (srcOffset0 + 1), src0 (srcOffset0 + 2),
         src0 (srcOffset0 + 3)⟩
        ⟨src1 srcOffset1, src1 (srcOffset1 + 1), src1 (srcOffset1 + 2),
         src1 (srcOffset1 + 3)⟩).z ∧
    multiplyQuaternionsFlat dst dstOffset src0 srcOffset0 src1 srcOffset1
        (dstOffset + 3) =
      (Quaternion.multiplyQuaternions
        ⟨src0 srcOffset0, src0 (srcOffset0 + 1), src0 (srcOffset0 + 2),
         src0 (srcOffset0 + 3)⟩
        ⟨src1 srcOffset1, src1 (srcOffset1 + 1), src1 (srcOffset1 + 2),
         src1 (srcOffset1 + 3)⟩).w := by
  refine ⟨?_, ?_, ?_, ?_⟩ <;>
    simp only [multiplyQuaternionsFlat, Quaternion.multiplyQuaternions,
      writeQuat_read_zero, writeQuat_read_one, writeQuat_read_two,
      writeQuat_read_three]

/-- `atan2 y x` for a point on the unit circle with `y > 0` is the angle
whose cosine is `x` and sine is `y`. -/
theorem atan2_cos_sin {y x : ℝ} (hxy : x * x + y * y = 1) (hy : 0 < y) :
    Real.cos (atan2 y x) = x ∧ Real.sin (atan2 y x) = y := by
  unfold atan2
  rcases lt_trichotomy x 0 with hx | hx | hx
  · have hx0 : x ≠ 0 := ne_of_lt hx
    have hs : Real.sqrt (1 + (y / x) ^ 2) = -(1 / x) := by
      have h1 : 1 + (y / x) ^ 2 = (1 / x) ^ 2 := by
        field_simp
        linear_combination hxy
      rw [h1, Real.sqrt_sq_eq_abs, abs_of_neg (one_div_neg.mpr hx)]
    rw [if_neg (by linarith), if_pos hx, if_pos (le_of_lt hy)]
    constructor
    · rw [Real.cos_add, Real.cos_pi, Real.sin_pi, Real.cos_arctan, hs]
      field_simp
    · rw [Real.sin_add, Real.sin_pi, Real.cos_pi, Real.sin_arctan, hs]
      field_simp
  · subst hx
    have hy1 : y = 1 := by nlinarith
    rw [if_neg (lt_irrefl 0), if_neg (lt_irrefl 0), if_pos hy, hy1]
    exact ⟨Real.cos_pi_div_two, Real.sin_pi_div_two⟩
  · have hx0 : x ≠ 0 := ne_of_gt hx
    have hs : Real.sqrt (1 + (y / x) ^ 2) = 1 / x := by
      have h1 : 1 + (y / x) ^ 2 = (1 / x) ^ 2 := by
        field_simp
        linear_combination hxy
      rw [h1, Real.sqrt_sq_eq_abs, abs_of_pos (by positivity)]
    rw [if_pos hx]
    constructor
    · rw [Real.cos_arctan, hs]
      field_simp
    · rw [Real.sin_arctan, hs]
      field_simp

/-- `0 < Number.EPSILON`. -/
theorem numberEpsilon_pos : 0 < numberEpsilon := by
  norm_num [numberEpsilon]

/-- The common tail: for unit sources and `dr = dir = ±1` with
`0 ≤ dr * cos < 1`, the flat tail computes exactly what the instance
tail `slerpMain` computes on the `dir`-adjusted target. -/
theorem slerpFlatTail_eq_slerpMain (x0 y0 z0 w0 x1 y1 z1 w1 t dr : ℝ)
    (h0 : x0 * x0 + y0 * y0 + z0 * z0 + w0 * w0 = 1)
    (h1 : x1 * x1 + y1 * y1 + z1 * z1 + w1 * w1 = 1)
    (hdd : dr * dr = 1)
    (hc0 : 0 ≤ dr * (x0 * x1 + y0 * y1 + z0 * z1 + w0 * w1))
    (hc1 : dr * (x0 * x1 + y0 * y1 + z0 * z1 + w0 * w1) < 1) :
    Quaternion.slerpFlatTail x0 y0 z0 w0 x1 y1 z1 w1 t dr =
      Quaternion.slerpMain ⟨x0, y0, z0, w0⟩
        ⟨dr * x1, dr * y1, dr * z1, dr * w1⟩
        (dr * (x0 * x1 + y0 * y1 + z0 * z1 + w0 * w1)) t := by
  have hcc : dr * (x0 * x1 + y0 * y1 + z0 * z1 + w0 * w1) *
      (dr * (x0 * x1 + y0 * y1 + z0 * z1 + w0 * w1)) =
      (x0 * x1 + y0 * y1 + z0 * z1 + w0 * w1) *
      (x0 * x1 + y0 * y1 + z0 * z1 + w0 * w1) := by
    linear_combination ((x0 * x1 + y0 * y1 + z0 * z1 + w0 * w1) *
      (x0 * x1 + y0 * y1 + z0 * z1 + w0 * w1)) * hdd
  simp only [Quaternion.slerpFlatTail, Quaternion.slerpMain]
  rw [if_neg (not_le.mpr hc1), hcc]
  by_cases heps :
      numberEpsilon < 1 - (x0 * x1 + y0 * y1 + z0 * z1 + w0 * w1) *
        (x0 * x1 + y0 * y1 + z0 * z1 + w0 * w1)
  · -- spherical branch
    rw [if_pos heps, if_neg (not_le.mpr heps)]
    dsimp only
    rw [mul_comm (x0 * x1 + y0 * y1 + z0 * z1 + w0 * w1) dr]
    set D := x0 * x1 + y0 * y1 + z0 * z1 + w0 * w1 with hD
    set S := Real.sqrt (1 - D * D) with hS
    set θ := atan2 S (dr * D) with hθ
    set A := Real.sin ((1 - t) * θ) / S with hA
    set B := Real.sin (t * θ) / S with hB
    have hS2 : S * S = 1 - D * D := by
      rw [hS]
      exact Real.mul_self_sqrt (by nlinarith [numberEpsilon_pos])
    have hSpos : 0 < S := by
      rw [hS]
      exact Real.sqrt_pos.mpr (by nlinarith [numberEpsilon_pos])
    have hSne : S ≠ 0 := ne_of_gt hSpos
    have hunit : (dr * D) * (dr * D) + S * S = 1 := by
      rw [hS2]
      linear_combination (D * D) * hdd
    obtain ⟨hcosθ, hsinθ⟩ := atan2_cos_sin hunit hSpos
    rw [← hθ] at hcosθ hsinθ
    have hkey : Real.sin ((1 - t) * θ) =
        S * Real.cos (t * θ) - dr * D * Real.sin (t * θ) := by
      have h : (1 - t) * θ = θ - t * θ := by ring
      rw [h, Real.sin_sub, hsinθ, hcosθ]
    have hpyth := Real.sin_sq_add_cos_sq (t * θ)
    have hnum : Real.sin ((1 - t) * θ) * Real.sin ((1 - t) * θ) +
        Real.sin (t * θ) * Real.sin (t * θ) +
        2 * (Real.sin ((1 - t) * θ) * Real.sin (t * θ)) * (dr * D) =
        S * S := by
      rw [hkey]
      linear_combination (S * S) * hpyth -
        (Real.sin (t * θ) * Real.sin (t * θ)) * hunit
    have hAB : A * A + 2 * A * B * (dr * D) + B * B = 1 := by
      rw [hA, hB]
      field_simp
      linear_combination hnum
    have hsum : (x0 * A + x1 * (B * dr)) * (x0 * A + x1 * (B * dr)) +
        (y0 * A + y1 * (B * dr)) * (y0 * A + y1 * (B * dr)) +
        (z0 * A + z1 * (B * dr)) * (z0 * A + z1 * (B * dr)) +
        (w0 * A + w1 * (B * dr)) * (w0 * A + w1 * (B * dr)) = 1 := by
      have step1 : (x0 * A + x1 * (B * dr)) * (x0 * A + x1 * (B * dr)) +
          (y0 * A + y1 * (B * dr)) * (y0 * A + y1 * (B * dr)) +
          (z0 * A + z1 * (B * dr)) * (z0 * A + z1 * (B * dr)) +
          (w0 * A + w1 * (B * dr)) * (w0 * A + w1 * (B * dr)) =
          A * A + 2 * A * B * (dr * D) + B * B := by
        linear_combination (A * A) * h0 + (B * B * (dr * dr)) * h1 +
          (B * B) * hdd - (2 * A * B * dr) * hD
      rw [step1, hAB]
    split_ifs with hre
    · rw [hsum, Real.sqrt_one]
      simp only [Quaternion.mk.injEq]
      refine ⟨by ring, by ring, by ring, by ring⟩
    · simp only [Quaternion.mk.injEq]
      refine ⟨by ring, by ring, by ring, by ring⟩
  · -- linear-interpolation fallback branch
    rw [if_neg heps, if_pos (not_lt.mp heps)]
    dsimp only
    rw [if_pos rfl]
    simp only [Quaternion.normalize, Quaternion.length]
    set D := x0 * x1 + y0 * y1 + z0 * z1 + w0 * w1 with hD
    have hblend : ((1 - t) * x0 + t * (dr * x1)) * ((1 - t) * x0 + t * (dr * x1)) +
        ((1 - t) * y0 + t * (dr * y1)) * ((1 - t) * y0 + t * (dr * y1)) +
        ((1 - t) * z0 + t * (dr * z1)) * ((1 - t) * z0 + t * (dr * z1)) +
        ((1 - t) * w0 + t * (dr * w1)) * ((1 - t) * w0 + t * (dr * w1)) =
        (1 - t) * (1 - t) + t * t + 2 * (t * (1 - t)) * (dr * D) := by
      linear_combination ((1 - t) * (1 - t)) * h0 + (t * t * (dr * dr)) * h1 +
        (t * t) * hdd - (2 * (t * (1 - t)) * dr) * hD
    have hval_pos : 0 < (1 - t) * (1 - t) + t * t + 2 * (t * (1 - t)) * (dr * D) := by
      nlinarith [mul_nonneg (le_of_lt (sub_pos.mpr hc1)) (sq_nonneg (1 - 2 * t)),
        hc0, sq_nonneg (1 - 2 * t)]
    have hmain_pos : 0 < ((1 - t) * x0 + t * (dr * x1)) * ((1 - t) * x0 + t * (dr * x1)) +
        ((1 - t) * y0 + t * (dr * y1)) * ((1 - t) * y0 + t * (dr * y1)) +
        ((1 - t) * z0 + t * (dr * z1)) * ((1 - t) * z0 + t * (dr * z1)) +
        ((1 - t) * w0 + t * (dr * w1)) * ((1 - t) * w0 + t * (dr * w1)) := by
      rw [hblend]
      exact hval_pos
    rw [if_neg (Real.sqrt_ne_zero'.mpr hmain_pos)]
    have hSumEq : (x0 * (1 - t) + x1 * (t * dr)) * (x0 * (1 - t) + x1 * (t * dr)) +
        (y0 * (1 - t) + y1 * (t * dr)) * (y0 * (1 - t) + y1 * (t * dr)) +
        (z0 * (1 - t) + z1 * (t * dr)) * (z0 * (1 - t) + z1 * (t * dr)) +
        (w0 * (1 - t) + w1 * (t * dr)) * (w0 * (1 - t) + w1 * (t * dr)) =
        ((1 - t) * x0 + t * (dr * x1)) * ((1 - t) * x0 + t * (dr * x1)) +
        ((1 - t) * y0 + t * (dr * y1)) * ((1 - t) * y0 + t * (dr * y1)) +
        ((1 - t) * z0 + t * (dr * z1)) * ((1 - t) * z0 + t * (dr * z1)) +
        ((1 - t) * w0 + t * (dr * w1)) * ((1 - t) * w0 + t * (dr * w1)) := by
      ring
    rw [hSumEq]
    simp only [Quaternion.mk.injEq]
    refine ⟨by ring, by ring, by ring, by ring⟩

set_option maxHeartbeats 1600000 in
/-- For unit sources, the value computed by the flat algorithm equals
the value computed by the instance method on the equivalent standalone
quaternions. -/
theorem slerpFlatCore_eq_slerp (x0 y0 z0 w0 x1 y1 z1 w1 t : ℝ)
    (h0 : x0 * x0 + y0 * y0 + z0 * z0 + w0 * w0 = 1)
    (h1 : x1 * x1 + y1 * y1 + z1 * z1 + w1 * w1 = 1) :
    Quaternion.slerpFlatCore x0 y0 z0 w0 x1 y1 z1 w1 t =
      Quaternion.slerp ⟨x0, y0, z0, w0⟩ ⟨x1, y1, z1, w1⟩ t := by
  by_cases ht0 : t = 0
  · simp [Quaternion.slerpFlatCore, Quaternion.slerp, ht0]
  by_cases ht1 : t = 1
  · simp [Quaternion.slerpFlatCore, Quaternion.slerp, ht0, ht1]
  simp only [Quaternion.slerpFlatCore, Quaternion.slerp]
  rw [if_neg ht0, if_neg ht1, if_neg ht0, if_neg ht1]
  rw [show w0 * w1 + x0 * x1 + y0 * y1 + z0 * z1 =
      x0 * x1 + y0 * y1 + z0 * z1 + w0 * w1 from by ring]
  by_cases hdiff : w0 ≠ w1 ∨ x0 ≠ x1 ∨ y0 ≠ y1 ∨ z0 ≠ z1
  · rw [if_pos hdiff]
    have hle : x0 * x1 + y0 * y1 + z0 * z1 + w0 * w1 ≤ 1 := by
      nlinarith [sq_nonneg (x0 - x1), sq_nonneg (y0 - y1),
        sq_nonneg (z0 - z1), sq_nonneg (w0 - w1)]
    have hge : -1 ≤ x0 * x1 + y0 * y1 + z0 * z1 + w0 * w1 := by
      nlinarith [sq_nonneg (x0 + x1), sq_nonneg (y0 + y1),
        sq_nonneg (z0 + z1), sq_nonneg (w0 + w1)]
    have hne1 : x0 * x1 + y0 * y1 + z0 * z1 + w0 * w1 ≠ 1 := by
      intro hd1
      have hzero : (x0 - x1) * (x0 - x1) + (y0 - y1) * (y0 - y1) +
          (z0 - z1) * (z0 - z1) + (w0 - w1) * (w0 - w1) = 0 := by
        linear_combination h0 + h1 - 2 * hd1
      have hwz : w0 - w1 = 0 := by
        have ha : (w0 - w1) * (w0 - w1) ≤ 0 := by
          nlinarith [mul_self_nonneg (x0 - x1), mul_self_nonneg (y0 - y1),
            mul_self_nonneg (z0 - z1)]
        exact mul_self_eq_zero.mp (le_antisymm ha (mul_self_nonneg _))
      have hxz : x0 - x1 = 0 := by
        have ha : (x0 - x1) * (x0 - x1) ≤ 0 := by
          nlinarith [mul_self_nonneg (w0 - w1), mul_self_nonneg (y0 - y1),
            mul_self_nonneg (z0 - z1)]
        exact mul_self_eq_zero.mp (le_antisymm ha (mul_self_nonneg _))
      have hyz : y0 - y1 = 0 := by
        have ha : (y0 - y1) * (y0 - y1) ≤ 0 := by
          nlinarith [mul_self_nonneg (w0 - w1), mul_self_nonneg (x0 - x1),
            mul_self_nonneg (z0 - z1)]
        exact mul_self_eq_zero.mp (le_antisymm ha (mul_self_nonneg _))
      have hzz : z0 - z1 = 0 := by
        have ha : (z0 - z1) * (z0 - z1) ≤ 0 := by
          nlinarith [mul_self_nonneg (w0 - w1), mul_self_nonneg (x0 - x1),
            mul_self_nonneg (y0 - y1)]
        exact mul_self_eq_zero.mp (le_antisymm ha (mul_self_nonneg _))
      rcases hdiff with h | h | h | h
      · exact h (sub_eq_zero.mp hwz)
      · exact h (sub_eq_zero.mp hxz)
      · exact h (sub_eq_zero.mp hyz)
      · exact h (sub_eq_zero.mp hzz)
    have hlt1 : x0 * x1 + y0 * y1 + z0 * z1 + w0 * w1 < 1 :=
      lt_of_le_of_ne hle hne1
    rcases eq_or_lt_of_le hge with hm1 | hm1
    · -- antipodal case: the dot product is exactly -1, so q1 = -q0
      have hd1 : x0 * x1 + y0 * y1 + z0 * z1 + w0 * w1 = -1 := hm1.symm
      have hzero : (x0 + x1) * (x0 + x1) + (y0 + y1) * (y0 + y1) +
          (z0 + z1) * (z0 + z1) + (w0 + w1) * (w0 + w1) = 0 := by
        linear_combination h0 + h1 + 2 * hd1
      have hxe : x1 = -x0 := by
        have ha : (x0 + x1) * (x0 + x1) ≤ 0 := by
          nlinarith [mul_self_nonneg (w0 + w1), mul_self_nonneg (y0 + y1),
            mul_self_nonneg (z0 + z1)]
        have := mul_self_eq_zero.mp (le_antisymm ha (mul_self_nonneg _))
        linarith
      have hye : y1 = -y0 := by
        have ha : (y0 + y1) * (y0 + y1) ≤ 0 := by
          nlinarith [mul_self_nonneg (w0 + w1), mul_self_nonneg (x0 + x1),
            mul_self_nonneg (z0 + z1)]
        have := mul_self_eq_zero.mp (le_antisymm ha (mul_self_nonneg _))
        linarith
      have hze : z1 = -z0 := by
        have ha : (z0 + z1) * (z0 + z1) ≤ 0 := by
          nlinarith [mul_self_nonneg (w0 + w1), mul_self_nonneg (x0 + x1),
            mul_self_nonneg (y0 + y1)]
        have := mul_self_eq_zero.mp (le_antisymm ha (mul_self_nonneg _))
        linarith
      have hwe : w1 = -w0 := by
        have ha : (w0 + w1) * (w0 + w1) ≤ 0 := by
          nlinarith [mul_self_nonneg (z0 + z1), mul_self_nonneg (x0 + x1),
            mul_self_nonneg (y0 + y1)]
        have := mul_self_eq_zero.mp (le_antisymm ha (mul_self_nonneg _))
        linarith
      subst hxe
      subst hye
      subst hze
      subst hwe
      rw [hd1]
      rw [if_neg (by norm_num : ¬ (0:ℝ) ≤ -1), if_pos (by norm_num : (-1:ℝ) < 0)]
      simp only [Quaternion.slerpFlatTail, Quaternion.slerpMain, neg_neg]
      rw [if_pos (le_refl (1:ℝ)), hd1]
      rw [if_neg (by norm_num [numberEpsilon] :
        ¬ numberEpsilon < 1 - (-1:ℝ) * -1)]
      dsimp only
      rw [if_pos rfl]
      rw [show x0 * (1 - t) + -x0 * (t * -1) = x0 from by ring,
          show y0 * (1 - t) + -y0 * (t * -1) = y0 from by ring,
          show z0 * (1 - t) + -z0 * (t * -1) = z0 from by ring,
          show w0 * (1 - t) + -w0 * (t * -1) = w0 from by ring,
          h0, Real.sqrt_one]
      norm_num
    · by_cases hsign : 0 ≤ x0 * x1 + y0 * y1 + z0 * z1 + w0 * w1
      · rw [if_pos hsign, if_neg (not_lt.mpr hsign)]
        rw [slerpFlatTail_eq_slerpMain x0 y0 z0 w0 x1 y1 z1 w1 t 1 h0 h1
          (by norm_num) (by rw [one_mul]; exact hsign) (by rw [one_mul]; exact hlt1)]
        simp only [one_mul]
      · push_neg at hsign
        rw [if_neg (not_le.mpr hsign), if_pos hsign]
        rw [slerpFlatTail_eq_slerpMain x0 y0 z0 w0 x1 y1 z1 w1 t (-1) h0 h1
          (by norm_num) (by linarith) (by linarith)]
        simp only [neg_one_mul]
  · rw [if_neg hdiff]
    push_neg at hdiff
    obtain ⟨hw, hx, hy, hz⟩ := hdiff
    have hd1 : x0 * x1 + y0 * y1 + z0 * z1 + w0 * w1 = 1 := by
      rw [← hx, ← hy, ← hz, ← hw]
      exact h0
    rw [hd1, if_neg (by norm_num : ¬ (1:ℝ) < 0)]
    simp only [Quaternion.slerpMain]
    rw [if_pos (le_refl (1:ℝ))]

/-- **C1 counterexample**: for non-unit sources the static `slerpFlat`
does *not* reproduce the instance `slerp`.  With source quaternions
`(0,0,0,2)` and `(0,0,0,3)` at `t = 1/2`, `slerpFlat` takes the linear
fallback plus re-normalization and writes `w = 1`, while the instance
method hits its `cosHalfTheta >= 1` short circuit (the dot product is
`6`) and keeps `w = 2`. -/
theorem slerpFlat_differs_from_slerp_nonunit :
    slerpFlat (fun _ => 0) 0 (fun i => if i = 3 then 2 else 0) 0
        (fun i => if i = 3 then 3 else 0) 0 (1 / 2) (0 + 3) ≠
      (Quaternion.slerp ⟨0, 0, 0, 2⟩ ⟨0, 0, 0, 3⟩ (1 / 2)).w := by
  have hcore : Quaternion.slerpFlatCore 0 0 0 2 0 0 0 3 (1 / 2) =
      ⟨0, 0, 0, 1⟩ := by
    simp only [Quaternion.slerpFlatCore]
    rw [if_neg (by norm_num : ¬ (1/2:ℝ) = 0),
        if_neg (by norm_num : ¬ (1/2:ℝ) = 1),
        if_pos (Or.inl (by norm_num : (2:ℝ) ≠ 3)),
        if_pos (by norm_num : (0:ℝ) ≤ 0 * 0 + 0 * 0 + 0 * 0 + 2 * 3)]
    simp only [Quaternion.slerpFlatTail]
    rw [if_neg (by norm_num [numberEpsilon] :
      ¬ numberEpsilon < 1 - ((0:ℝ) * 0 + 0 * 0 + 0 * 0 + 2 * 3) *
        ((0:ℝ) * 0 + 0 * 0 + 0 * 0 + 2 * 3))]
    dsimp only
    rw [if_pos rfl]
    rw [show ((0:ℝ) * (1 - 1 / 2) + 0 * (1 / 2 * 1)) *
          ((0:ℝ) * (1 - 1 / 2) + 0 * (1 / 2 * 1)) +
          ((0:ℝ) * (1 - 1 / 2) + 0 * (1 / 2 * 1)) *
          ((0:ℝ) * (1 - 1 / 2) + 0 * (1 / 2 * 1)) +
          ((0:ℝ) * (1 - 1 / 2) + 0 * (1 / 2 * 1)) *
          ((0:ℝ) * (1 - 1 / 2) + 0 * (1 / 2 * 1)) +
          ((2:ℝ) * (1 - 1 / 2) + 3 * (1 / 2 * 1)) *
          ((2:ℝ) * (1 - 1 / 2) + 3 * (1 / 2 * 1)) = (5 / 2) ^ 2 from by
        norm_num]
    rw [Real.sqrt_sq (by norm_num : (0:ℝ) ≤ 5 / 2)]
    simp only [Quaternion.mk.injEq]
    norm_num
  have hinst : Quaternion.slerp ⟨0, 0, 0, 2⟩ ⟨0, 0, 0, 3⟩ (1 / 2) =
      ⟨0, 0, 0, 2⟩ := by
    simp only [Quaternion.slerp]
    rw [if_neg (by norm_num : ¬ (1/2:ℝ) = 0),
        if_neg (by norm_num : ¬ (1/2:ℝ) = 1)]
    rw [if_neg (by norm_num : ¬ (2:ℝ) * 3 + 0 * 0 + 0 * 0 + 0 * 0 < 0)]
    simp only [Quaternion.slerpMain]
    rw [if_pos (by norm_num : (1:ℝ) ≤ 2 * 3 + 0 * 0 + 0 * 0 + 0 * 0)]
  simp only [slerpFlat]
  norm_num
  rw [hcore, hinst, writeQuat_read_three]
  norm_num

/-- **C1 (amended)** For every pair of *unit* quaternions held in flat
arrays at arbitrary offsets and every `t`, the static
`Quaternion.slerpFlat` writes into `dst` at `dstOffset` the
componentwise same numeric values that the instance method `slerp`
produces on the equivalent standalone quaternions (including the
`t === 0` / `t === 1` short circuits and the re-normalization taken
only on the `s === 1 - t` linear-interpolation fallback, which for unit
inputs never changes the already-unit spherical result). -/
theorem slerpFlat_matches_slerp_of_unit (dst : ℕ → ℝ) (dstOffset : ℕ)
    (src0 : ℕ → ℝ) (srcOffset0 : ℕ) (src1 : ℕ → ℝ) (srcOffset1 : ℕ)
    (t : ℝ)
    (h0 : Quaternion.lengthSq ⟨src0 srcOffset0, src0 (srcOffset0 + 1),
      src0 (srcOffset0 + 2), src0 (srcOffset0 + 3)⟩ = 1)
    (h1 : Quaternion.lengthSq ⟨src1 srcOffset1, src1 (srcOffset1 + 1),
      src1 (srcOffset1 + 2), src1 (srcOffset1 + 3)⟩ = 1) :
    slerpFlat dst dstOffset src0 srcOffset0 src1 srcOffset1 t dstOffset =
      (Quaternion.slerp
        ⟨src0 srcOffset0, src0 (srcOffset0 + 1), src0 (srcOffset0 + 2),
         src0 (srcOffset0 + 3)⟩
        ⟨src1 srcOffset1, src1 (srcOffset1 + 1), src1 (srcOffset1 + 2),
         src1 (srcOffset1 + 3)⟩ t).x ∧
    slerpFlat dst dstOffset src0 srcOffset0 src1 srcOffset1 t
        (dstOffset + 1) =
      (Quaternion.slerp
        ⟨src0 srcOffset0, src0 (srcOffset0 + 1), src0 (srcOffset0 + 2),
         src0 (srcOffset0 + 3)⟩
        ⟨src1 srcOffset1, src1 (srcOffset1 + 1), src1 (srcOffset1 + 2),
         src1 (srcOffset1 + 3)⟩ t).y ∧
    slerpFlat dst dstOffset src0 srcOffset0 src1 srcOffset1 t
        (dstOffset + 2) =
      (Quaternion.slerp
        ⟨src0 srcOffset0, src0 (srcOffset0 + 1), src0 (srcOffset0 + 2),
         src0 (srcOffset0 + 3)⟩
        ⟨src1 srcOffset1, src1 (srcOffset1 + 1), src1 (srcOffset1 + 2),
         src1 (srcOffset1 + 3)⟩ t).z ∧
    slerpFlat dst dstOffset src0 srcOffset0 src1 srcOffset1 t
        (dstOffset + 3) =
      (Quaternion.slerp
        ⟨src0 srcOffset0, src0 (srcOffset0 + 1), src0 (srcOffset0 + 2),
         src0 (srcOffset0 + 3)⟩
        ⟨src1 srcOffset1, src1 (srcOffset1 + 1), src1 (srcOffset1 + 2),
         src1 (srcOffset1 + 3)⟩ t).w := by
  simp only [Quaternion.lengthSq] at h0 h1
  have hcore := slerpFlatCore_eq_slerp (src0 srcOffset0)
    (src0 (srcOffset0 + 1)) (src0 (srcOffset0 + 2)) (src0 (srcOffset0 + 3))
    (src1 srcOffset1) (src1 (srcOffset1 + 1)) (src1 (srcOffset1 + 2))
    (src1 (srcOffset1 + 3)) t h0 h1
  refine ⟨?_, ?_, ?_, ?_⟩
  · simp only [slerpFlat]
    rw [writeQuat_read_zero, hcore]
  · simp only [slerpFlat]
    rw [writeQuat_read_one, hcore]
  · simp only [slerpFlat]
    rw [writeQuat_read_two, hcore]
  · simp only [slerpFlat]
    rw [writeQuat_read_three, hcore]

/-- Witness for C1 at the concrete unit quaternions `(0,0,0,1)` and
`(1,0,0,0)` stored at offset `0`, with `t = 1/2`. -/
theorem slerpFlat_matches_slerp_of_unit_witness :
    Quaternion.lengthSq ⟨(fun i : ℕ => if i = 3 then (1:ℝ) else 0) 0,
      (fun i : ℕ => if i = 3 then (1:ℝ) else 0) (0 + 1),
      (fun i : ℕ => if i = 3 then (1:ℝ) else 0) (0 + 2),
      (fun i : ℕ => if i = 3 then (1:ℝ) else 0) (0 + 3)⟩ = 1 ∧
    Quaternion.lengthSq ⟨(fun i : ℕ => if i = 0 then (1:ℝ) else 0) 0,
      (fun i : ℕ => if i = 0 then (1:ℝ) else 0) (0 + 1),
      (fun i : ℕ => if i = 0 then (1:ℝ) else 0) (0 + 2),
      (fun i : ℕ => if i = 0 then (1:ℝ) else 0) (0 + 3)⟩ = 1 ∧
    slerpFlat (fun _ => 0) 0 (fun i : ℕ => if i = 3 then (1:ℝ) else 0) 0
        (fun i : ℕ => if i = 0 then (1:ℝ) else 0) 0 (1 / 2) 0 =
      (Quaternion.slerp
        ⟨(fun i : ℕ => if i = 3 then (1:ℝ) else 0) 0,
         (fun i : ℕ => if i = 3 then (1:ℝ) else 0) (0 + 1),
         (fun i : ℕ => if i = 3 then (1:ℝ) else 0) (0 + 2),
         (fun i : ℕ => if i = 3 then (1:ℝ) else 0) (0 + 3)⟩
        ⟨(fun i : ℕ => if i = 0 then (1:ℝ) else 0) 0,
         (fun i : ℕ => if i = 0 then (1:ℝ) else 0) (0 + 1),
         (fun i : ℕ => if i = 0 then (1:ℝ) else 0) (0 + 2),
         (fun i : ℕ => if i = 0 then (1:ℝ) else 0) (0 + 3)⟩ (1 / 2)).x := by
  have h0 : Quaternion.lengthSq ⟨(fun i : ℕ => if i = 3 then (1:ℝ) else 0) 0,
      (fun i : ℕ => if i = 3 then (1:ℝ) else 0) (0 + 1),
      (fun i : ℕ => if i = 3 then (1:ℝ) else 0) (0 + 2),
      (fun i : ℕ => if i = 3 then (1:ℝ) else 0) (0 + 3)⟩ = 1 := by
    norm_num [Quaternion.lengthSq]
  have h1 : Quaternion.lengthSq ⟨(fun i : ℕ => if i = 0 then (1:ℝ) else 0) 0,
      (fun i : ℕ => if i = 0 then (1:ℝ) else 0) (0 + 1),
      (fun i : ℕ => if i = 0 then (1:ℝ) else 0) (0 + 2),
      (fun i : ℕ => if i = 0 then (1:ℝ) else 0) (0 + 3)⟩ = 1 := by
    norm_num [Quaternion.lengthSq]
  exact ⟨h0, h1,
    (slerpFlat_matches_slerp_of_unit (fun _ => 0) 0
      (fun i : ℕ => if i = 3 then (1:ℝ) else 0) 0
      (fun i : ℕ => if i = 0 then (1:ℝ) else 0) 0 (1 / 2) h0 h1).1⟩

theorem clamp_neg_one_one (v : ℝ) : clamp (-v) (-1) 1 = -clamp v (-1) 1 := by
  simp only [clamp, min_def, max_def]
  split_ifs <;> linarith

/-- **C2 counterexample**: `slerp` does *not* give identical results on
`q` and `-q` in general.  At `t = 1` the short circuit copies the
target, so the results are `q` and `-q` themselves; and when the dot
product is `0` the double-cover negation branch is not taken for either
target, so the two results differ by the sign of the target term. -/
theorem slerp_not_negation_invariant :
    Quaternion.slerp ⟨0, 0, 0, 1⟩ ⟨0, 0, 0, 1⟩ 1 ≠
      Quaternion.slerp ⟨0, 0, 0, 1⟩ (Quaternion.negQ ⟨0, 0, 0, 1⟩) 1 ∧
    Quaternion.slerp ⟨0, 0, 0, 1⟩ ⟨1, 0, 0, 0⟩ (1 / 2) ≠
      Quaternion.slerp ⟨0, 0, 0, 1⟩ (Quaternion.negQ ⟨1, 0, 0, 0⟩) (1 / 2) := by
  have hpi4 : Real.sin ((1 / 2 : ℝ) * (Real.pi / 2)) ≠ 0 := by
    have : (1 / 2 : ℝ) * (Real.pi / 2) = Real.pi / 4 := by ring
    rw [this, Real.sin_pi_div_four]
    have := Real.sq_sqrt (by norm_num : (2:ℝ) ≥ 0)
    intro h
    rw [div_eq_zero_iff] at h
    rcases h with h | h
    · rw [Real.sqrt_eq_zero'] at h; linarith
    · norm_num at h
  have hatan : atan2 1 0 = Real.pi / 2 := by
    simp [atan2]
  have hmain : ∀ u : ℝ, Quaternion.slerpMain ⟨0, 0, 0, 1⟩ ⟨u, 0, 0, 0⟩ 0 (1 / 2) =
      ⟨0 * (Real.sin ((1 - 1 / 2) * (Real.pi / 2)) / Real.sqrt (1 - 0 * 0)) +
         u * (Real.sin ((1 / 2) * (Real.pi / 2)) / Real.sqrt (1 - 0 * 0)),
       0, 0,
       1 * (Real.sin ((1 - 1 / 2) * (Real.pi / 2)) / Real.sqrt (1 - 0 * 0)) +
         0 * (Real.sin ((1 / 2) * (Real.pi / 2)) / Real.sqrt (1 - 0 * 0))⟩ := by
    intro u
    simp only [Quaternion.slerpMain]
    rw [if_neg (by norm_num : ¬ (1:ℝ) ≤ 0),
        if_neg (by norm_num [numberEpsilon] : ¬ (1 - (0:ℝ) * 0 ≤ numberEpsilon))]
    rw [show (1 - (0:ℝ) * 0) = 1 by norm_num, Real.sqrt_one, hatan]
    simp
  constructor
  · norm_num [Quaternion.slerp, Quaternion.negQ, Quaternion.mk.injEq]
  · have h1 : Quaternion.slerp ⟨0, 0, 0, 1⟩ ⟨1, 0, 0, 0⟩ (1 / 2) =
        Quaternion.slerpMain ⟨0, 0, 0, 1⟩ ⟨1, 0, 0, 0⟩ 0 (1 / 2) := by
      simp only [Quaternion.slerp]
      rw [if_neg (by norm_num : ¬ (1/2:ℝ) = 0), if_neg (by norm_num : ¬ (1/2:ℝ) = 1)]
      norm_num
    have h2 : Quaternion.slerp ⟨0, 0, 0, 1⟩ (Quaternion.negQ ⟨1, 0, 0, 0⟩) (1 / 2) =
        Quaternion.slerpMain ⟨0, 0, 0, 1⟩ ⟨-1, 0, 0, 0⟩ 0 (1 / 2) := by
      simp only [Quaternion.slerp, Quaternion.negQ]
      rw [if_neg (by norm_num : ¬ (1/2:ℝ) = 0), if_neg (by norm_num : ¬ (1/2:ℝ) = 1)]
      norm_num
    rw [h1, h2, hmain 1, hmain (-1)]
    intro h
    have hx := congrArg Quaternion.x h
    simp only [Real.sqrt_one] at hx
    rw [show (1 - (0:ℝ) * 0) = 1 by norm_num, Real.sqrt_one] at hx
    simp only [one_mul, neg_mul, zero_mul, zero_add, div_one] at hx
    exact hpi4 (by linarith)

/-- **C2 (amended)** For every `a`, `q` and every `t ≠ 1` such that the
cosine term `a.w*q.w + a.x*q.x + a.y*q.y + a.z*q.z` (the dot product) is
nonzero, `a.slerp(q, t)` and `a.slerp(-q, t)` produce identical
components; and `a.angleTo(q) = a.angleTo(-q)` unconditionally. -/
theorem slerp_angleTo_double_cover :
    (∀ (a q : Quaternion) (t : ℝ), t ≠ 1 → a.dot q ≠ 0 →
      a.slerp q t = a.slerp (Quaternion.negQ q) t) ∧
    ∀ a q : Quaternion, a.angleTo q = a.angleTo (Quaternion.negQ q) := by
  constructor
  · intro a q t ht hd
    by_cases h0 : t = 0
    · simp [Quaternion.slerp, h0]
    have hdot : a.w * q.w + a.x * q.x + a.y * q.y + a.z * q.z ≠ 0 := by
      intro h; apply hd; simp only [Quaternion.dot]; linarith
    simp only [Quaternion.slerp, Quaternion.negQ]
    rw [if_neg h0, if_neg ht, if_neg h0, if_neg ht]
    rcases lt_trichotomy (a.w * q.w + a.x * q.x + a.y * q.y + a.z * q.z) 0 with hlt | heq | hgt
    · rw [if_pos hlt, if_neg (by push_neg; nlinarith)]
      congr 1
      ring
    · exact absurd heq hdot
    · rw [if_neg (by push_neg; linarith),
          if_pos (by nlinarith)]
      congr 1
      · simp
      · ring
  · intro a q
    have hdot : a.dot (Quaternion.negQ q) = -(a.dot q) := by
      simp only [Quaternion.dot, Quaternion.negQ]; ring
    simp only [Quaternion.angleTo, hdot, clamp_neg_one_one, abs_neg]

/-- Witness for C2 at `a = q = (0,0,0,1)`, `t = 1/2`. -/
theorem slerp_angleTo_double_cover_witness :
    ((1/2 : ℝ) ≠ 1) ∧ (Quaternion.dot ⟨0, 0, 0, 1⟩ ⟨0, 0, 0, 1⟩ ≠ 0) ∧
    Quaternion.slerp ⟨0, 0, 0, 1⟩ ⟨0, 0, 0, 1⟩ (1/2) =
      Quaternion.slerp ⟨0, 0, 0, 1⟩ (Quaternion.negQ ⟨0, 0, 0, 1⟩) (1/2) := by
  have h1 : (1/2 : ℝ) ≠ 1 := by norm_num
  have h2 : Quaternion.dot ⟨0, 0, 0, 1⟩ ⟨0, 0, 0, 1⟩ ≠ 0 := by
    simp [Quaternion.dot]
  exact ⟨h1, h2,
    slerp_angleTo_double_cover.1 ⟨0, 0, 0, 1⟩ ⟨0, 0, 0, 1⟩ (1/2) h1 h2⟩

/-- **C5** `Quaternion.setFromEuler` throws if and only if its argument
lacks the Euler identity; for a valid Euler whose order is not one of
the six recognized orders it does not throw, emits only a warning, and
leaves all four quaternion components at their prior values (the
change callback still fires unless `update === false`). -/
theorem setFromEuler_throw_iff_and_unknown_order :
    (∀ (q : Quaternion) (euler : Option EulerArg) (update : Option Bool),
      (∃ msg, Quaternion.setFromEuler q euler update = Except.error msg) ↔
        lacksEulerIdentity euler) ∧
    ∀ (q : Quaternion) (e : EulerArg) (update : Option Bool),
      e.isEuler = true → ¬ recognizedOrder e.order →
        Quaternion.setFromEuler q (some e) update =
          Except.ok (q, true, callbackFires update) := by
  constructor
  · intro q euler update
    match euler with
    | none =>
      simp only [Quaternion.setFromEuler, lacksEulerIdentity, iff_true]
      exact ⟨_, rfl⟩
    | some e =>
      simp only [Quaternion.setFromEuler, lacksEulerIdentity]
      by_cases hie : e.isEuler = false
      · rw [if_pos hie]
        simp only [hie, iff_true]
        exact ⟨_, rfl⟩
      · rw [if_neg hie]
        constructor
        · rintro ⟨msg, hmsg⟩
          split_ifs at hmsg
        · intro h
          exact absurd h hie
  · intro q e update hie hord
    simp only [Quaternion.setFromEuler]
    rw [if_neg (by simp [hie])]
    simp only [recognizedOrder] at hord
    push_neg at hord
    obtain ⟨h1, h2, h3, h4, h5, h6⟩ := hord
    rw [if_neg h1, if_neg h2, if_neg h3, if_neg h4, if_neg h5, if_neg h6]

/-- Witness for C5: a valid Euler argument with the unknown order
`"ABC"` leaves the quaternion `(1,2,3,4)` untouched with a warning. -/
theorem setFromEuler_throw_iff_and_unknown_order_witness :
    EulerArg.isEuler ⟨true, 0, 0, 0, "ABC"⟩ = true ∧
    ¬ recognizedOrder (EulerArg.order ⟨true, 0, 0, 0, "ABC"⟩) ∧
    Quaternion.setFromEuler ⟨1, 2, 3, 4⟩ (some ⟨true, 0, 0, 0, "ABC"⟩) none =
      Except.ok (⟨1, 2, 3, 4⟩, true, callbackFires none) := by
  have h1 : EulerArg.isEuler ⟨true, 0, 0, 0, "ABC"⟩ = true := rfl
  have h2 : ¬ recognizedOrder (EulerArg.order ⟨true, 0, 0, 0, "ABC"⟩) := by
    simp only [recognizedOrder]
    decide
  exact ⟨h1, h2, setFromEuler_throw_iff_and_unknown_order.2
    ⟨1, 2, 3, 4⟩ ⟨true, 0, 0, 0, "ABC"⟩ none h1 h2⟩

theorem jsOrDefault_some_of_ne (s d : String) (h : s ≠ "") :
    jsOrDefault (some s) d = s := by
  simp [jsOrDefault, h]

/-- **C4** For every 4x4 matrix whose asin-target element for the given
order has absolute value `>= 0.9999999`, `Euler.setFromRotationMatrix`
takes the gimbal-lock fallback branch of that order (it is a total
function, so nothing is thrown): one angle is set from the alternate
`atan2` combination and the third angle is forced to `0` — for `XYZ`:
`x = atan2(m32, m22)`, `z = 0`, and correspondingly for the other five
orders. -/
theorem setFromRotationMatrix_gimbal_fallback (e : Euler) (m : Matrix4)
    (u : Option Bool) :
    (0.9999999 ≤ |m.elements 8| →
      (Euler.setFromRotationMatrix e m (some "XYZ") u).1.x =
          atan2 (m.elements 6) (m.elements 5) ∧
        (Euler.setFromRotationMatrix e m (some "XYZ") u).1.z = 0) ∧
    (0.9999999 ≤ |m.elements 9| →
      (Euler.setFromRotationMatrix e m (some "YXZ") u).1.y =
          atan2 (-m.elements 2) (m.elements 0) ∧
        (Euler.setFromRotationMatrix e m (some "YXZ") u).1.z = 0) ∧
    (0.9999999 ≤ |m.elements 6| →
      (Euler.setFromRotationMatrix e m (some "ZXY") u).1.y = 0 ∧
        (Euler.setFromRotationMatrix e m (some "ZXY") u).1.z =
          atan2 (m.elements 1) (m.elements 0)) ∧
    (0.9999999 ≤ |m.elements 2| →
      (Euler.setFromRotationMatrix e m (some "ZYX") u).1.x = 0 ∧
        (Euler.setFromRotationMatrix e m (some "ZYX") u).1.z =
          atan2 (-m.elements 4) (m.elements 5)) ∧
    (0.9999999 ≤ |m.elements 1| →
      (Euler.setFromRotationMatrix e m (some "YZX") u).1.x = 0 ∧
        (Euler.setFromRotationMatrix e m (some "YZX") u).1.y =
          atan2 (m.elements 8) (m.elements 10)) ∧
    (0.9999999 ≤ |m.elements 4| →
      (Euler.setFromRotationMatrix e m (some "XZY") u).1.x =
          atan2 (-m.elements 9) (m.elements 10) ∧
        (Euler.setFromRotationMatrix e m (some "XZY") u).1.y = 0) := by
  refine ⟨?_, ?_, ?_, ?_, ?_, ?_⟩ <;> intro h <;>
    simp only [Euler.setFromRotationMatrix] <;>
    rw [jsOrDefault_some_of_ne _ _ (by decide)]
  · rw [if_pos rfl, if_neg (not_lt.mpr h)]
    exact ⟨rfl, rfl⟩
  · rw [if_neg (by decide), if_pos rfl, if_neg (not_lt.mpr h)]
    exact ⟨rfl, rfl⟩
  · rw [if_neg (by decide), if_neg (by decide), if_pos rfl,
      if_neg (not_lt.mpr h)]
    exact ⟨rfl, rfl⟩
  · rw [if_neg (by decide), if_neg (by decide), if_neg (by decide),
      if_pos rfl, if_neg (not_lt.mpr h)]
    exact ⟨rfl, rfl⟩
  · rw [if_neg (by decide), if_neg (by decide), if_neg (by decide),
      if_neg (by decide), if_pos rfl, if_neg (not_lt.mpr h)]
    exact ⟨rfl, rfl⟩
  · rw [if_neg (by decide), if_neg (by decide), if_neg (by decide),
      if_neg (by decide), if_neg (by decide), if_pos rfl,
      if_neg (not_lt.mpr h)]
    exact ⟨rfl, rfl⟩

/-- Witness for C4: the all-ones matrix triggers the gimbal-lock
fallback for all six orders. -/
theorem setFromRotationMatrix_gimbal_fallback_witness :
    ((0.9999999:ℝ) ≤ |Matrix4.elements ⟨fun _ => 1⟩ 8|) ∧
    ((Euler.setFromRotationMatrix ⟨0, 0, 0, "XYZ"⟩ ⟨fun _ => 1⟩
        (some "XYZ") none).1.x =
      atan2 (Matrix4.elements ⟨fun _ => 1⟩ 6)
        (Matrix4.elements ⟨fun _ => 1⟩ 5) ∧
      (Euler.setFromRotationMatrix ⟨0, 0, 0, "XYZ"⟩ ⟨fun _ => 1⟩
        (some "XYZ") none).1.z = 0) ∧
    ((Euler.setFromRotationMatrix ⟨0, 0, 0, "XYZ"⟩ ⟨fun _ => 1⟩
        (some "YXZ") none).1.y =
      atan2 (-Matrix4.elements ⟨fun _ => 1⟩ 2)
        (Matrix4.elements ⟨fun _ => 1⟩ 0) ∧
      (Euler.setFromRotationMatrix ⟨0, 0, 0, "XYZ"⟩ ⟨fun _ => 1⟩
        (some "YXZ") none).1.z = 0) ∧
    ((Euler.setFromRotationMatrix ⟨0, 0, 0, "XYZ"⟩ ⟨fun _ => 1⟩
        (some "ZXY") none).1.y = 0 ∧
      (Euler.setFromRotationMatrix ⟨0, 0, 0, "XYZ"⟩ ⟨fun _ => 1⟩
        (some "ZXY") none).1.z =
        atan2 (Matrix4.elements ⟨fun _ => 1⟩ 1)
          (Matrix4.elements ⟨fun _ => 1⟩ 0)) ∧
    ((Euler.setFromRotationMatrix ⟨0, 0, 0, "XYZ"⟩ ⟨fun _ => 1⟩
        (some "ZYX") none).1.x = 0 ∧
      (Euler.setFromRotationMatrix ⟨0, 0, 0, "XYZ"⟩ ⟨fun _ => 1⟩
        (some "ZYX") none).1.z =
        atan2 (-Matrix4.elements ⟨fun _ => 1⟩ 4)
          (Matrix4.elements ⟨fun _ => 1⟩ 5)) ∧
    ((Euler.setFromRotationMatrix ⟨0, 0, 0, "XYZ"⟩ ⟨fun _ => 1⟩
        (some "YZX") none).1.x = 0 ∧
      (Euler.setFromRotationMatrix ⟨0, 0, 0, "XYZ"⟩ ⟨fun _ => 1⟩
        (some "YZX") none).1.y =
        atan2 (Matrix4.elements ⟨fun _ => 1⟩ 8)
          (Matrix4.elements ⟨fun _ => 1⟩ 10)) ∧
    ((Euler.setFromRotationMatrix ⟨0, 0, 0, "XYZ"⟩ ⟨fun _ => 1⟩
        (some "XZY") none).1.x =
        atan2 (-Matrix4.elements ⟨fun _ => 1⟩ 9)
          (Matrix4.elements ⟨fun _ => 1⟩ 10) ∧
      (Euler.setFromRotationMatrix ⟨0, 0, 0, "XYZ"⟩ ⟨fun _ => 1⟩
        (some "XZY") none).1.y = 0) := by
  have h : ∀ k : ℕ, (0.9999999:ℝ) ≤ |Matrix4.elements ⟨fun _ => 1⟩ k| := by
    intro k
    norm_num
  have ht := setFromRotationMatrix_gimbal_fallback ⟨0, 0, 0, "XYZ"⟩
    ⟨fun _ => 1⟩ none
  exact ⟨h 8, ht.1 (h 8), ht.2.1 (h 9), ht.2.2.1 (h 6), ht.2.2.2.1 (h 2),
    ht.2.2.2.2.1 (h 1), ht.2.2.2.2.2 (h 4)⟩

/-- **C9 counterexample**: with the *empty* (unrecognized) order string,
`order = order || this._order` falls back to the prior order due to
JavaScript falsiness, so `_order` is *not* overwritten with the passed
string. -/
theorem setFromRotationMatrix_empty_order_not_overwritten :
    (Euler.setFromRotationMatrix ⟨1, 2, 3, "XYZ"⟩
        ⟨fun i => if i = 0 ∨ i = 5 ∨ i = 10 then 1 else 0⟩
        (some "") none).1.order ≠ "" := by
  simp only [Euler.setFromRotationMatrix, jsOrDefault]
  simp

/-- **C9 (amended)** For every Euler `e` and every *nonempty* order
string `o` that is not one of the six recognized orders,
`e.setFromRotationMatrix(m, o, update)` leaves the three angle fields
unchanged, still unconditionally overwrites the `_order` field with the
unrecognized value `o`, and still fires the change callback unless
`update === false` was passed. -/
theorem setFromRotationMatrix_unknown_order_frame_effect
    (e : Euler) (m : Matrix4) (o : String) (u : Option Bool)
    (hne : o ≠ "") (ho : ¬ recognizedOrder o) :
    (Euler.setFromRotationMatrix e m (some o) u).1.x = e.x ∧
    (Euler.setFromRotationMatrix e m (some o) u).1.y = e.y ∧
    (Euler.setFromRotationMatrix e m (some o) u).1.z = e.z ∧
    (Euler.setFromRotationMatrix e m (some o) u).1.order = o ∧
    ((Euler.setFromRotationMatrix e m (some o) u).2 = true ↔
      u ≠ some false) := by
  simp only [Euler.setFromRotationMatrix, jsOrDefault]
  rw [if_neg hne]
  simp only [recognizedOrder] at ho
  push_neg at ho
  obtain ⟨h1, h2, h3, h4, h5, h6⟩ := ho
  rw [if_neg h1, if_neg h2, if_neg h3, if_neg h4, if_neg h5, if_neg h6]
  refine ⟨rfl, rfl, rfl, rfl, ?_⟩
  cases u with
  | none => simp [callbackFires]
  | some b => cases b <;> simp [callbackFires]

/-- Witness for C9 at the concrete unknown order `"ABC"`. -/
theorem setFromRotationMatrix_unknown_order_frame_effect_witness :
    ("ABC" ≠ "") ∧ ¬ recognizedOrder "ABC" ∧
    ((Euler.setFromRotationMatrix ⟨1, 2, 3, "XYZ"⟩ ⟨fun _ => 0⟩
        (some "ABC") none).1.x = Euler.x ⟨1, 2, 3, "XYZ"⟩ ∧
      (Euler.setFromRotationMatrix ⟨1, 2, 3, "XYZ"⟩ ⟨fun _ => 0⟩
        (some "ABC") none).1.y = Euler.y ⟨1, 2, 3, "XYZ"⟩ ∧
      (Euler.setFromRotationMatrix ⟨1, 2, 3, "XYZ"⟩ ⟨fun _ => 0⟩
        (some "ABC") none).1.z = Euler.z ⟨1, 2, 3, "XYZ"⟩ ∧
      (Euler.setFromRotationMatrix ⟨1, 2, 3, "XYZ"⟩ ⟨fun _ => 0⟩
        (some "ABC") none).1.order = "ABC" ∧
      ((Euler.setFromRotationMatrix ⟨1, 2, 3, "XYZ"⟩ ⟨fun _ => 0⟩
        (some "ABC") none).2 = true ↔ (none : Option Bool) ≠ some false)) := by
  have hne : ("ABC" : String) ≠ "" := by decide
  have ho : ¬ recognizedOrder "ABC" := by
    simp only [recognizedOrder]
    decide
  exact ⟨hne, ho, setFromRotationMatrix_unknown_order_frame_effect
    ⟨1, 2, 3, "XYZ"⟩ ⟨fun _ => 0⟩ "ABC" none hne ho⟩

/-- **C10** For every `CubicInterpolant` state (whatever the cached
tangent weights), every bracketing interval with `t0 != t1`, and every
stride, `interpolate_(i1, t0, t0, t1)` (i.e. `t = t0`, so `p = 0`)
writes exactly the sample row at index `i1 - 1` into the result buffer:
the Hermite basis evaluates to `sP = 0, s0 = 1, s1 = 0, sN = 0`. -/
theorem interpolate_at_left_endpoint (cubic : CubicInterpolant)
    (i1 : ℤ) (t0 t1 : ℝ) (_hne : t0 ≠ t1) :
    ∀ i : ℕ, i < cubic.valueSize →
      CubicInterpolant.interpolate cubic i1 t0 t0 t1 i =
        cubic.sampleValues ((i1 - 1) * (cubic.valueSize : ℤ) + i) := by
  intro i hi
  simp only [CubicInterpolant.interpolate]
  rw [if_pos hi]
  rw [show (t0 - t0) / (t1 - t0) = 0 from by rw [sub_self, zero_div]]
  rw [show i1 * (cubic.valueSize : ℤ) - (cubic.valueSize : ℤ) + (i : ℤ) =
      (i1 - 1) * (cubic.valueSize : ℤ) + (i : ℤ) from by ring]
  ring

/-- Witness for C10 at a concrete two-sample state with `i1 = 1`. -/
theorem interpolate_at_left_endpoint_witness :
    ((0:ℝ) ≠ 1) ∧ 0 < CubicInterpolant.valueSize
      ⟨[0, 1], fun n => (n : ℝ), 1, Ending.zeroCurvature,
       Ending.zeroCurvature, 0, 0, 0, 0, fun _ => 0⟩ ∧
    CubicInterpolant.interpolate
        ⟨[0, 1], fun n => (n : ℝ), 1, Ending.zeroCurvature,
         Ending.zeroCurvature, 0, 0, 0, 0, fun _ => 0⟩ 1 0 0 1 0 =
      CubicInterpolant.sampleValues
        ⟨[0, 1], fun n => (n : ℝ), 1, Ending.zeroCurvature,
         Ending.zeroCurvature, 0, 0, 0, 0, fun _ => 0⟩
        ((1 - 1) * (CubicInterpolant.valueSize
          ⟨[0, 1], fun n => (n : ℝ), 1, Ending.zeroCurvature,
           Ending.zeroCurvature, 0, 0, 0, 0, fun _ => 0⟩ : ℤ) + (0 : ℕ)) := by
  refine ⟨by norm_num, by norm_num, ?_⟩
  exact interpolate_at_left_endpoint
    ⟨[0, 1], fun n => (n : ℝ), 1, Ending.zeroCurvature,
     Ending.zeroCurvature, 0, 0, 0, 0, fun _ => 0⟩ 1 0 1 (by norm_num)
    0 (by norm_num)

/-- **C3** For a `CubicInterpolant` over exactly 2 samples with
`ZeroCurvatureEnding` at both ends (the default settings), for all
sample times `t0 < t1`, every stride, and every `t` with
`t0 <= t <= t1`, `intervalChanged_(1, t0, t1)` followed by
`interpolate_(1, t0, t, t1)` produces the componentwise linear blend
`(1-p)*v0 + p*v1` of the two sample rows, `p = (t-t0)/(t1-t0)`: the
cubic reduces to a straight line between the two samples. -/
theorem cubic_two_samples_is_linear (t0 t1 t : ℝ) (stride : ℕ)
    (values : ℤ → ℝ) (buf : ℕ → ℝ)
    (h01 : t0 < t1) (_hlo : t0 ≤ t) (_hhi : t ≤ t1) :
    ∀ i : ℕ, i < stride →
      CubicInterpolant.interpolate
        (CubicInterpolant.intervalChanged
          ⟨[t0, t1], values, stride, Ending.zeroCurvature,
           Ending.zeroCurvature, 0, 0, 0, 0, buf⟩ 1 t0 t1) 1 t0 t t1 i =
        (1 - (t - t0) / (t1 - t0)) * values (i : ℤ) +
          (t - t0) / (t1 - t0) * values ((stride : ℤ) + (i : ℤ)) := by
  intro i hi
  have hsub : t1 - t0 ≠ 0 := ne_of_gt (by linarith)
  have hprev : arrayGetZ [t0, t1] (1 - 2 : ℤ) = none := by
    rw [arrayGetZ, dif_neg]
    intro hcon
    omega
  have hnext : arrayGetZ [t0, t1] (1 + 1 : ℤ) = none := by
    rw [arrayGetZ, dif_neg]
    intro hcon
    have := hcon.2
    simp at this
  simp only [CubicInterpolant.intervalChanged, hprev, hnext]
  simp only [CubicInterpolant.interpolate]
  rw [if_pos hi]
  have hwp : (t1 - t0) * 0.5 / (t0 - t1) = -(1 / 2) := by
    rw [div_eq_iff (by intro hcon; apply hsub; linarith)]
    ring
  rw [hwp]
  rw [show (1 : ℤ) * (stride : ℤ) - (stride : ℤ) + (i : ℤ) = (i : ℤ) from by
        ring,
      show ((1 : ℤ) - 1) * (stride : ℤ) + (i : ℤ) = (i : ℤ) from by ring,
      show (1 : ℤ) * (stride : ℤ) + (i : ℤ) = (stride : ℤ) + (i : ℤ) from by
        ring]
  field_simp
  ring

/-- Witness for C3 at samples `[0, 1]`, stride 1, `t = 1/2`. -/
theorem cubic_two_samples_is_linear_witness :
    ((0:ℝ) < 1) ∧ ((0:ℝ) ≤ 1 / 2) ∧ ((1/2:ℝ) ≤ 1) ∧ (0 < 1) ∧
    CubicInterpolant.interpolate
        (CubicInterpolant.intervalChanged
          ⟨[0, 1], fun n => (n : ℝ), 1, Ending.zeroCurvature,
           Ending.zeroCurvature, 0, 0, 0, 0, fun _ => 0⟩ 1 0 1) 1 0 (1/2) 1 0 =
      (1 - ((1/2:ℝ) - 0) / (1 - 0)) * (fun n : ℤ => (n : ℝ)) ((0:ℕ) : ℤ) +
        ((1/2:ℝ) - 0) / (1 - 0) *
          (fun n : ℤ => (n : ℝ)) (((1:ℕ) : ℤ) + ((0:ℕ) : ℤ)) := by
  refine ⟨by norm_num, by norm_num, by norm_num, by norm_num, ?_⟩
  exact cubic_two_samples_is_linear 0 1 (1/2) 1 (fun n => (n : ℝ))
    (fun _ => 0) (by norm_num) (by norm_num) (by norm_num) 0 (by norm_num)

end ThreeMath
